import Mathlib

/-!
# Volume collector of the NetApp API exporter

A shallow embedding of `pkg/collector/volumecollector.go`: the descriptor table
built by `NewVolumeCollector`, and the methods `Describe`, `Collect` and `Fetch`
of `VolumeCollector`, followed by the properties the specification states about
them.

Conventions of the embedding.

* A Go slice `[]*netapp.Volume` is an `Option (List Volume)`: `none` is the nil
  slice, `some []` a non-nil slice of length zero, `some (v :: vs)` a non-empty
  slice.  The elements are taken as the volumes they point to: the client is
  to return populated volumes only.
* `float64` is `Float`; the conversion `float64(n)` of an integer is
  `Float.ofInt n`.
* The storage client is the function giving the answer of the k-th call of
  `ListVolumes`; the collector counts the calls it has made in `listCalls`.
* `time.AfterFunc` adds one to the number `pending` of scheduled invalidations;
  the callback is the event `invalidate`.  Time itself is not part of the
  state: a scheduled invalidation may run at any later step.  The mutex makes
  `Collect` and the callback atomic, so both are single steps.  Logging is
  left out, and so is the field `errorCh`, which no method reads or writes.
* `ch <- x` appends `x` to the sequence a method returns.
-/

set_option linter.dupNamespace false

namespace Collector

/-- Modelled from the spec: the record `netapp.Volume`, declared in package
`netapp` outside the files at hand.  Section 3 of the specification lists its
attributes: six strings, the integer `State`, and ten numbers. -/
structure Volume where
  Vserver : String
  Volume : String
  ProjectID : String
  ShareID : String
  ShareName : String
  ShareType : String
  State : Int
  SizeTotal : Float
  SizeUsed : Float
  SizeAvailable : Float
  SizeUsedBySnapshots : Float
  SizeAvailableForSnapshots : Float
  SnapshotReserveSize : Float
  PercentageSizeUsed : Float
  PercentageTotalSpaceSaved : Float
  PercentageCompressionSpaceSaved : Float
  PercentageDeduplicationSpaceSaved : Float

/-- The kinds of value of the metrics library (`prometheus.ValueType`). -/
inductive ValueType where
  | CounterValue
  | GaugeValue
  | UntypedValue
  deriving DecidableEq, Repr

/-- A descriptor of the metrics library (`prometheus.Desc`): name, help text,
the ordered label schema and the constant labels. -/
structure Desc where
  fqName : String
  help : String
  variableLabels : List String
  constLabels : List (String × String)
  deriving DecidableEq, Repr

/-- The constructor `prometheus.NewDesc` of the metrics library.  Its checks of
the metric and label names are left out. -/
def NewDesc (fqName help : String) (variableLabels : List String)
    (constLabels : List (String × String)) : Desc :=
  { fqName := fqName, help := help, variableLabels := variableLabels,
    constLabels := constLabels }

/-- A constant sample of the metrics library: its descriptor, kind, value and
label values. -/
structure Metric where
  desc : Desc
  valType : ValueType
  val : Float
  labelValues : List String

/-- The constructor `prometheus.NewConstMetric` of the metrics library, by its
documented contract: it refuses a sequence of label values whose length differs
from the length of the descriptor's label schema.  The library also refuses a
label value that is not valid UTF-8; a `String` is a sequence of Unicode
characters, so that check has no counterpart here. -/
def NewConstMetric (desc : Desc) (valueType : ValueType) (value : Float)
    (labelValues : List String) : Except String Metric :=
  if labelValues.length ≠ desc.variableLabels.length then
    Except.error "inconsistent label cardinality"
  else
    Except.ok { desc := desc, valType := valueType, val := value,
                labelValues := labelValues }

/-- The wrapper `prometheus.MustNewConstMetric`, which panics where
`NewConstMetric` returns an error; the panic is the `Except.error` result. -/
def MustNewConstMetric (desc : Desc) (valueType : ValueType) (value : Float)
    (labelValues : List String) : Except String Metric :=
  NewConstMetric desc valueType value labelValues

/-- One row of the descriptor table (`VolumeMetric`). -/
structure VolumeMetric where
  desc : Desc
  valueType : ValueType
  getterFn : Volume → Float

/-- What one call of `client.ListVolumes()` returns: a slice and an error. -/
structure ListVolumesResult where
  volumes : Option (List Volume)
  err : Option String

/-- The collector (`VolumeCollector`).  `listCalls` counts the calls of
`ListVolumes` made so far and `pending` the invalidations scheduled with
`time.AfterFunc` that have not run yet. -/
structure VolumeCollector where
  filerName : String
  client : Nat → ListVolumesResult
  metrics : List VolumeMetric
  volumes : Option (List Volume)
  retentionPeriod : Nat
  listCalls : Nat
  pending : Nat

/-- The constructor `NewVolumeCollector`. -/
def NewVolumeCollector (filerName : String) (client : Nat → ListVolumesResult)
    (retentionPeriod : Nat) : VolumeCollector :=
  let volumeLabels := ["vserver", "volume", "project_id", "share_id", "share_name", "share_type"]
  { filerName := filerName
    client := client
    retentionPeriod := retentionPeriod
    volumes := none
    listCalls := 0
    pending := 0
    metrics := [
      { desc := NewDesc
          "netapp_volume_state"
          "Netapp Volume Metrics: state (1: online; 2: restricted; 3: offline; 4: quiesced)"
          volumeLabels
          []
        valueType := ValueType.GaugeValue
        getterFn := fun v => Float.ofInt v.State },
      { desc := NewDesc
          "netapp_volume_total_bytes"
          "Netapp Volume Metrics: total size"
          volumeLabels
          []
        valueType := ValueType.GaugeValue
        getterFn := fun v => v.SizeTotal },
      { desc := NewDesc
          "netapp_volume_used_bytes"
          "Netapp Volume Metrics: used size"
          volumeLabels
          []
        valueType := ValueType.GaugeValue
        getterFn := fun v => v.SizeUsed },
      { desc := NewDesc
          "netapp_volume_available_bytes"
          "Netapp Volume Metrics: available size"
          volumeLabels
          []
        valueType := ValueType.GaugeValue
        getterFn := fun v => v.SizeAvailable },
      { desc := NewDesc
          "netapp_volume_snapshot_used_bytes"
          "Netapp Volume Metrics: size used by snapshots"
          volumeLabels
          []
        valueType := ValueType.GaugeValue
        getterFn := fun v => v.SizeUsedBySnapshots },
      { desc := NewDesc
          "netapp_volume_snapshot_available_bytes"
          "Netapp Volume Metrics: size available for snapshots"
          volumeLabels
          []
        valueType := ValueType.GaugeValue
        getterFn := fun v => v.SizeAvailableForSnapshots },
      { desc := NewDesc
          "netapp_volume_snapshot_reserved_bytes"
          "Netapp Volume Metrics: size reserved for snapshots"
          volumeLabels
          []
        valueType := ValueType.GaugeValue
        getterFn := fun v => v.SnapshotReserveSize },
      { desc := NewDesc
          "netapp_volume_used_percentage"
          "Netapp Volume Metrics: used percentage "
          volumeLabels
          []
        valueType := ValueType.GaugeValue
        getterFn := fun v => v.PercentageSizeUsed },
      { desc := NewDesc
          "netapp_volume_saved_total_percentage"
          "Netapp Volume Metrics: percentage of space compression and deduplication saved"
          volumeLabels
          []
        valueType := ValueType.GaugeValue
        getterFn := fun v => v.PercentageTotalSpaceSaved },
      { desc := NewDesc
          "netapp_volume_saved_compression_percentage"
          "Netapp Volume Metrics: percentage of space compression saved"
          volumeLabels
          []
        valueType := ValueType.GaugeValue
        getterFn := fun v => v.PercentageCompressionSpaceSaved },
      { desc := NewDesc
          "netapp_volume_saved_deduplication_percentage"
          "Netapp Volume Metrics: percentage of space deduplication saved"
          volumeLabels
          []
        valueType := ValueType.GaugeValue
        getterFn := fun v => v.PercentageDeduplicationSpaceSaved }
    ] }

/-- The built-in `len` on a slice that may be nil. -/
def len {α : Type} : Option (List α) → Nat
  | none => 0
  | some xs => xs.length

/-- The elements a `range` loop over a slice visits, in order; none for nil. -/
def elems {α : Type} : Option (List α) → List α
  | none => []
  | some xs => xs

/-- The method `Describe`: the descriptor of every row of the table, in order.
It reads `c.metrics` and writes nothing. -/
def Describe (c : VolumeCollector) : List Desc :=
  c.metrics.map (fun m => m.desc)

/-- The method `Fetch`: one call of `ListVolumes`; nil on error, else the
slice the client returned. -/
def Fetch (c : VolumeCollector) : VolumeCollector × Option (List Volume) :=
  let r := c.client c.listCalls
  let c1 := { c with listCalls := c.listCalls + 1 }
  match r.err with
  | some _ => (c1, none)
  | none => (c1, r.volumes)

/-- The fetch step of `Collect` (the `if c.volumes == nil` block). -/
def fetchStep (c : VolumeCollector) : VolumeCollector :=
  match c.volumes with
  | none =>
    let p := Fetch c
    let c1 := { p.1 with volumes := p.2 }
    if len c1.volumes > 0 then { c1 with pending := c1.pending + 1 } else c1
  | some _ => c

/-- The inner loop of `Collect`: one sample per row of the table for one
volume. -/
def exportVolume (volumeLabels : List String) (volume : Volume) :
    List VolumeMetric → Except String (List Metric)
  | [] => Except.ok []
  | m :: ms =>
    match MustNewConstMetric m.desc m.valueType (m.getterFn volume) volumeLabels with
    | Except.error e => Except.error e
    | Except.ok s =>
      match exportVolume volumeLabels volume ms with
      | Except.error e => Except.error e
      | Except.ok ss => Except.ok (s :: ss)

/-- The outer loop of `Collect` (the block after `// export metrics`). -/
def exportVolumes (metrics : List VolumeMetric) : List Volume → Except String (List Metric)
  | [] => Except.ok []
  | volume :: rest =>
    let volumeLabels := [volume.Vserver, volume.Volume, volume.ProjectID, volume.ShareID,
      volume.ShareName, volume.ShareType]
    match exportVolume volumeLabels volume metrics with
    | Except.error e => Except.error e
    | Except.ok ss =>
      match exportVolumes metrics rest with
      | Except.error e => Except.error e
      | Except.ok tt => Except.ok (ss ++ tt)

/-- The method `Collect`: the fetch step, then the export of the cache. -/
def Collect (c : VolumeCollector) : VolumeCollector × Except String (List Metric) :=
  let c1 := fetchStep c
  (c1, exportVolumes c1.metrics (elems c1.volumes))

/-- The callback `Collect` hands to `time.AfterFunc`: it clears the cache.  It
runs only when it has been scheduled. -/
def invalidate (c : VolumeCollector) : VolumeCollector :=
  if c.pending = 0 then c else { c with volumes := none, pending := c.pending - 1 }

/-- What can happen to a collector. -/
inductive Event where
  | collect
  | invalidate
  | describe
  deriving DecidableEq, Repr

/-- One step of the collector. -/
def step (c : VolumeCollector) : Event → VolumeCollector
  | Event.collect => (Collect c).1
  | Event.invalidate => invalidate c
  | Event.describe => c

/-- A sequence of steps. -/
def run (c : VolumeCollector) : List Event → VolumeCollector
  | [] => c
  | e :: es => run (step c e) es

/-- The states a freshly constructed collector can reach. -/
inductive Reachable : VolumeCollector → Prop where
  | init (filerName : String) (client : Nat → ListVolumesResult) (retentionPeriod : Nat) :
      Reachable (NewVolumeCollector filerName client retentionPeriod)
  | collect {c : VolumeCollector} : Reachable c → Reachable (Collect c).1
  | invalidate {c : VolumeCollector} : Reachable c → 0 < c.pending → Reachable (invalidate c)

/-- The descriptor table is the one the constructor builds. -/
def Constructed (c : VolumeCollector) : Prop :=
  c.metrics = (NewVolumeCollector c.filerName c.client c.retentionPeriod).metrics

/-- The number of calls of `ListVolumes` one `Collect` makes. -/
def fetches (c : VolumeCollector) : Nat :=
  (Collect c).1.listCalls - c.listCalls

/-- Whether one `Collect` schedules an invalidation. -/
def schedules (c : VolumeCollector) : Prop :=
  (Collect c).1.pending = c.pending + 1

/-- The label values `Collect` attaches to the samples of one volume. -/
def labelsOf (v : Volume) : List String :=
  [v.Vserver, v.Volume, v.ProjectID, v.ShareID, v.ShareName, v.ShareType]

/-- The sample of one row of the table for one volume. -/
def sampleOf (v : Volume) (m : VolumeMetric) : Metric :=
  { desc := m.desc, valType := m.valueType, val := m.getterFn v, labelValues := labelsOf v }

/-- The samples derived from a list of volumes: volume by volume, and for each
volume row by row. -/
def samplesOf (metrics : List VolumeMetric) (vols : List Volume) : List Metric :=
  vols.flatMap (fun v => metrics.map (sampleOf v))

/-- The cache after the fetch step of `Collect`, read off the source: the
cached slice when it is not nil, else what `Fetch` returned. -/
def cacheAfterFetch (c : VolumeCollector) : Option (List Volume) :=
  match c.volumes with
  | none => (Fetch c).2
  | some vs => some vs

/-- A filer whose client answers every call with a non-nil slice of length zero
and no error. -/
def emptySliceFiler : VolumeCollector :=
  NewVolumeCollector "filer" (fun _ => { volumes := some [], err := none }) 300

/-- A filer whose client answers every call with the nil slice and no error. -/
def nilSliceFiler : VolumeCollector :=
  NewVolumeCollector "filer" (fun _ => { volumes := none, err := none }) 300

/-- A filer whose client fails on every call. -/
def failingFiler : VolumeCollector :=
  NewVolumeCollector "filer" (fun _ => { volumes := none, err := some "timeout" }) 300

/-- The volume of the extraction example of the specification. -/
def sampleVolume : Volume :=
  { Vserver := "vs1", Volume := "vol1", ProjectID := "p1", ShareID := "s1",
    ShareName := "share1", ShareType := "default",
    State := 3, SizeTotal := 1000, SizeUsed := 400, SizeAvailable := 600,
    SizeUsedBySnapshots := 10, SizeAvailableForSnapshots := 20, SnapshotReserveSize := 30,
    PercentageSizeUsed := 40, PercentageTotalSpaceSaved := 5,
    PercentageCompressionSpaceSaved := 2, PercentageDeduplicationSpaceSaved := 3 }

/-- A filer whose client answers every call with the one volume `sampleVolume`. -/
def oneVolumeFiler : VolumeCollector :=
  NewVolumeCollector "filer" (fun _ => { volumes := some [sampleVolume], err := none }) 300

/-! ## Lemmas on the export loops -/

theorem exportVolume_ok (labels : List String) (v : Volume) (ms : List VolumeMetric)
    (h : ∀ m ∈ ms, m.desc.variableLabels.length = labels.length) :
    exportVolume labels v ms = Except.ok (ms.map (fun m =>
      { desc := m.desc, valType := m.valueType, val := m.getterFn v, labelValues := labels })) := by
  induction ms with
  | nil => rfl
  | cons m ms ih =>
    have hm : m.desc.variableLabels.length = labels.length := h m (List.mem_cons_self _ _)
    have hms : ∀ m' ∈ ms, m'.desc.variableLabels.length = labels.length :=
      fun m' hm' => h m' (List.mem_cons_of_mem _ hm')
    simp [exportVolume, MustNewConstMetric, NewConstMetric, hm, ih hms]

theorem exportVolumes_ok (ms : List VolumeMetric) (vols : List Volume)
    (h : ∀ m ∈ ms, m.desc.variableLabels.length = 6) :
    exportVolumes ms vols = Except.ok (samplesOf ms vols) := by
  induction vols with
  | nil => rfl
  | cons v vs ih =>
    have hv := exportVolume_ok (labelsOf v) v ms (by simpa [labelsOf] using h)
    simp only [labelsOf] at hv
    simp only [exportVolumes, hv, ih]
    simp [samplesOf, sampleOf, labelsOf]

theorem length_samplesOf (ms : List VolumeMetric) (vols : List Volume) :
    (samplesOf ms vols).length = ms.length * vols.length := by
  induction vols with
  | nil => simp [samplesOf]
  | cons v vs ih =>
    have : samplesOf ms (v :: vs) = ms.map (sampleOf v) ++ samplesOf ms vs := by
      simp [samplesOf]
    rw [this, List.length_append, ih, List.length_map, List.length_cons, Nat.mul_succ,
      Nat.add_comm]

/-! ## Lemmas on the fetch step -/

theorem fetchStep_of_some (c : VolumeCollector) (vs : List Volume)
    (h : c.volumes = some vs) : fetchStep c = c := by
  simp [fetchStep, h]

theorem Fetch_state (c : VolumeCollector) :
    (Fetch c).1 = { c with listCalls := c.listCalls + 1 } := by
  simp only [Fetch]
  cases (c.client c.listCalls).err <;> rfl

theorem fetchStep_of_none (c : VolumeCollector) (h : c.volumes = none) :
    fetchStep c =
      { c with
        volumes := (Fetch c).2
        listCalls := c.listCalls + 1
        pending := if len (Fetch c).2 > 0 then c.pending + 1 else c.pending } := by
  unfold fetchStep
  rw [h]
  by_cases hl : len (Fetch c).2 > 0 <;> simp [hl, Fetch_state]

theorem fetchStep_metrics (c : VolumeCollector) : (fetchStep c).metrics = c.metrics := by
  cases h : c.volumes with
  | none => rw [fetchStep_of_none c h]
  | some vs => rw [fetchStep_of_some c vs h]

theorem fetchStep_volumes (c : VolumeCollector) :
    (fetchStep c).volumes = cacheAfterFetch c := by
  cases h : c.volumes with
  | none => rw [fetchStep_of_none c h]; simp [cacheAfterFetch, h]
  | some vs => rw [fetchStep_of_some c vs h]; simp [cacheAfterFetch, h]

theorem Fetch_of_error (c : VolumeCollector) (e : String)
    (h : (c.client c.listCalls).err = some e) : (Fetch c).2 = none := by
  simp [Fetch, h]

theorem Fetch_of_success (c : VolumeCollector)
    (h : (c.client c.listCalls).err = none) : (Fetch c).2 = (c.client c.listCalls).volumes := by
  simp [Fetch, h]

theorem table_label_arity (c : VolumeCollector) (hc : Constructed c) :
    ∀ m ∈ c.metrics, m.desc.variableLabels.length = 6 := by
  intro m hm
  rw [hc] at hm
  simp only [NewVolumeCollector, NewDesc, List.mem_cons, List.mem_singleton] at hm
  simp only [List.not_mem_nil, or_false] at hm
  rcases hm with h | h | h | h | h | h | h | h | h | h | h <;> (subst h; rfl)

theorem table_length (c : VolumeCollector) (hc : Constructed c) : c.metrics.length = 11 := by
  rw [hc]; rfl

theorem Collect_state (c : VolumeCollector) : (Collect c).1 = fetchStep c := rfl

theorem Collect_samples (c : VolumeCollector) (hc : Constructed c) :
    (Collect c).2 = Except.ok (samplesOf c.metrics (elems (cacheAfterFetch c))) := by
  have h6 : ∀ m ∈ (fetchStep c).metrics, m.desc.variableLabels.length = 6 := by
    rw [fetchStep_metrics]; exact table_label_arity c hc
  show exportVolumes (fetchStep c).metrics (elems (fetchStep c).volumes) = _
  rw [exportVolumes_ok _ _ h6, fetchStep_metrics, fetchStep_volumes]

theorem fetchStep_constructed (c : VolumeCollector) (hc : Constructed c) :
    Constructed (fetchStep c) := by
  cases h : c.volumes with
  | none => rw [fetchStep_of_none c h]; exact hc
  | some vs => rw [fetchStep_of_some c vs h]; exact hc

theorem invalidate_constructed (c : VolumeCollector) (hc : Constructed c) :
    Constructed (invalidate c) := by
  unfold invalidate
  split
  · exact hc
  · exact hc

theorem step_constructed (c : VolumeCollector) (e : Event) (hc : Constructed c) :
    Constructed (step c e) := by
  cases e with
  | collect => exact fetchStep_constructed c hc
  | invalidate => exact invalidate_constructed c hc
  | describe => exact hc

theorem run_constructed (evs : List Event) (c : VolumeCollector) (hc : Constructed c) :
    Constructed (run c evs) := by
  induction evs generalizing c with
  | nil => exact hc
  | cons e es ih => exact ih (step c e) (step_constructed c e hc)

theorem reachable_constructed (c : VolumeCollector) (h : Reachable c) : Constructed c := by
  induction h with
  | init f cl p => rfl
  | collect _ ih => exact fetchStep_constructed _ ih
  | invalidate _ _ ih => exact invalidate_constructed _ ih

theorem len_eq_length_elems {α : Type} (o : Option (List α)) : len o = (elems o).length := by
  cases o <;> rfl

theorem fetches_of_none (c : VolumeCollector) (h : c.volumes = none) : fetches c = 1 := by
  unfold fetches
  rw [Collect_state, fetchStep_of_none c h]
  simp

theorem fetches_of_some (c : VolumeCollector) (vs : List Volume) (h : c.volumes = some vs) :
    fetches c = 0 := by
  unfold fetches
  rw [Collect_state, fetchStep_of_some c vs h]
  simp

theorem invalidate_keeps_none (c : VolumeCollector) (h : c.volumes = none) :
    (invalidate c).volumes = none := by
  unfold invalidate
  split
  · exact h
  · rfl

theorem run_without_collect (evs : List Event) (c : VolumeCollector)
    (h : c.volumes = none) (hevs : Event.collect ∉ evs) : (run c evs).volumes = none := by
  induction evs generalizing c with
  | nil => exact h
  | cons e es ih =>
    have he : e ≠ Event.collect := fun heq => hevs (heq ▸ List.mem_cons_self _ _)
    have hes : Event.collect ∉ es := fun hmem => hevs (List.mem_cons_of_mem _ hmem)
    have hstep : (step c e).volumes = none := by
      cases e with
      | collect => exact absurd rfl he
      | invalidate => exact invalidate_keeps_none c h
      | describe => exact h
    exact ih (step c e) hstep hes

theorem run_without_invalidate (evs : List Event) (c : VolumeCollector) (vs : List Volume)
    (h : c.volumes = some vs) (hevs : Event.invalidate ∉ evs) : run c evs = c := by
  induction evs with
  | nil => rfl
  | cons e es ih =>
    have he : e ≠ Event.invalidate := fun heq => hevs (heq ▸ List.mem_cons_self _ _)
    have hes : Event.invalidate ∉ es := fun hmem => hevs (List.mem_cons_of_mem _ hmem)
    have hstep : step c e = c := by
      cases e with
      | collect => exact fetchStep_of_some c vs h
      | invalidate => exact absurd rfl he
      | describe => rfl
    show run (step c e) es = c
    rw [hstep]
    exact ih hes

theorem run_of_populated_unscheduled (evs : List Event) (c : VolumeCollector)
    (vs : List Volume) (h : c.volumes = some vs) (hp : c.pending = 0) : run c evs = c := by
  induction evs with
  | nil => rfl
  | cons e es ih =>
    have hstep : step c e = c := by
      cases e with
      | collect => exact fetchStep_of_some c vs h
      | invalidate => simp [step, invalidate, hp]
      | describe => rfl
    show run (step c e) es = c
    rw [hstep]
    exact ih

theorem step_metrics (c : VolumeCollector) (e : Event) : (step c e).metrics = c.metrics := by
  cases e with
  | collect => exact fetchStep_metrics c
  | invalidate =>
    show (invalidate c).metrics = c.metrics
    unfold invalidate
    split <;> rfl
  | describe => rfl

theorem run_metrics (evs : List Event) (c : VolumeCollector) :
    (run c evs).metrics = c.metrics := by
  induction evs generalizing c with
  | nil => rfl
  | cons e es ih =>
    show (run (step c e) es).metrics = c.metrics
    rw [ih, step_metrics]

/-- The invariant of the reachable states: at most one invalidation is
scheduled, and one is scheduled exactly when the cache holds a volume. -/
theorem reachable_invariant (c : VolumeCollector) (h : Reachable c) :
    c.pending ≤ 1 ∧ (0 < c.pending ↔ 0 < len c.volumes) := by
  induction h with
  | init f cl p => exact ⟨Nat.zero_le _, Iff.rfl⟩
  | @collect c _ ih =>
    rw [Collect_state]
    cases hv : c.volumes with
    | some vs => rw [fetchStep_of_some c vs hv]; exact ih
    | none =>
      have h0 : c.pending = 0 := by
        have := ih.2
        rw [hv] at this
        simp only [len, Nat.lt_irrefl, iff_false, Nat.not_lt, Nat.le_zero] at this
        exact this
      rw [fetchStep_of_none c hv]
      by_cases hl : len (Fetch c).2 > 0
      · simp [hl, h0]
      · simp [hl, h0]
  | @invalidate c _ hp ih =>
    have h1 : c.pending = 1 := Nat.le_antisymm ih.1 hp
    simp [invalidate, h1, len]

/-! ## The claims -/

/-- C1: for a collector carrying the constructor's table, whatever its cache
and whatever the client answers, `Collect` returns normally; the cache after
its fetch step is the cached slice when there was one and else what `Fetch`
returned; it emits `11 * n` samples for the `n` volumes of that cache, namely
one sample per volume and row of the table, volume by volume in table order,
so that the descriptors emitted for each volume are those of `Describe`. -/
theorem collect_emits_eleven_per_cached_volume (c : VolumeCollector) (hc : Constructed c) :
    (Collect c).1.volumes = cacheAfterFetch c ∧
    ∃ samples : List Metric,
      (Collect c).2 = Except.ok samples ∧
      samples.length = 11 * len (Collect c).1.volumes ∧
      samples = (elems (Collect c).1.volumes).flatMap (fun v => c.metrics.map (sampleOf v)) ∧
      samples.map (fun s => s.desc)
        = (elems (Collect c).1.volumes).flatMap (fun _ => Describe c) := by
  refine ⟨fetchStep_volumes c, samplesOf c.metrics (elems (cacheAfterFetch c)),
    Collect_samples c hc, ?_, ?_, ?_⟩
  · rw [length_samplesOf, table_length c hc, Collect_state, fetchStep_volumes,
      len_eq_length_elems]
  · rw [Collect_state, fetchStep_volumes]; rfl
  · rw [Collect_state, fetchStep_volumes]
    simp [samplesOf, List.map_flatMap, Describe, sampleOf, Function.comp_def]

/-- Witness of C1: the filer with one volume. -/
theorem collect_emits_eleven_per_cached_volume_witness :
    Constructed oneVolumeFiler ∧
    ((Collect oneVolumeFiler).1.volumes = cacheAfterFetch oneVolumeFiler ∧
    ∃ samples : List Metric,
      (Collect oneVolumeFiler).2 = Except.ok samples ∧
      samples.length = 11 * len (Collect oneVolumeFiler).1.volumes ∧
      samples = (elems (Collect oneVolumeFiler).1.volumes).flatMap
        (fun v => oneVolumeFiler.metrics.map (sampleOf v)) ∧
      samples.map (fun s => s.desc)
        = (elems (Collect oneVolumeFiler).1.volumes).flatMap
            (fun _ => Describe oneVolumeFiler)) :=
  ⟨rfl, collect_emits_eleven_per_cached_volume oneVolumeFiler rfl⟩

/-- C2: where the code departs from the claim.  The client answers with a
non-nil slice of length zero and no error, which is a success with an empty
sequence.  The first `Collect` of a fresh collector, a reachable state, makes
its one call, stores that slice and schedules nothing; the very next `Collect`
makes no call of `ListVolumes`, where the claim has it call again; and after
every sequence of events the collector is still in that state, so that it
never calls `ListVolumes` again. -/
theorem empty_slice_is_not_refetched :
    emptySliceFiler.volumes = none ∧
    (emptySliceFiler.client emptySliceFiler.listCalls).err = none ∧
    (emptySliceFiler.client emptySliceFiler.listCalls).volumes = some [] ∧
    len (emptySliceFiler.client emptySliceFiler.listCalls).volumes = 0 ∧
    fetches emptySliceFiler = 1 ∧
    Reachable (Collect emptySliceFiler).1 ∧
    (Collect emptySliceFiler).1.volumes = some [] ∧
    (Collect emptySliceFiler).1.pending = 0 ∧
    ¬ (fetches (Collect emptySliceFiler).1 = 1) ∧
    fetches (Collect emptySliceFiler).1 = 0 ∧
    (∀ evs : List Event,
      run (Collect emptySliceFiler).1 evs = (Collect emptySliceFiler).1 ∧
      fetches (run (Collect emptySliceFiler).1 evs) = 0 ∧
      (run (Collect emptySliceFiler).1 evs).listCalls = 1) := by
  have hfix : ∀ evs : List Event,
      run (Collect emptySliceFiler).1 evs = (Collect emptySliceFiler).1 :=
    fun evs => run_of_populated_unscheduled evs _ [] rfl rfl
  refine ⟨rfl, rfl, rfl, rfl, by decide, Reachable.collect (Reachable.init _ _ _), rfl, rfl,
    by decide, by decide, ?_⟩
  intro evs
  rw [hfix evs]
  exact ⟨rfl, by decide, rfl⟩

/-- The sibling path of the empty answer: for a collector whose cache is
absent, if `ListVolumes` answers with the nil slice and no error, `Collect`
makes that one call, emits nothing, leaves the cache absent and schedules no
invalidation, and the next `Collect` calls `ListVolumes` again, whatever events
other than a `Collect` (scheduled invalidations running, `Describe`) come in
between. -/
theorem nil_result_is_refetched (c : VolumeCollector)
    (habsent : c.volumes = none)
    (hok : (c.client c.listCalls).err = none)
    (hnil : (c.client c.listCalls).volumes = none) :
    fetches c = 1 ∧
    (Collect c).2 = Except.ok [] ∧
    (Collect c).1.volumes = none ∧
    (Collect c).1.pending = c.pending ∧
    fetches (Collect c).1 = 1 ∧
    ∀ evs : List Event, Event.collect ∉ evs → fetches (run (Collect c).1 evs) = 1 := by
  have hf : (Fetch c).2 = none := by rw [Fetch_of_success c hok, hnil]
  have hv : (Collect c).1.volumes = none := by
    rw [Collect_state, fetchStep_volumes]; simp [cacheAfterFetch, habsent, hf]
  refine ⟨fetches_of_none c habsent, ?_, hv, ?_, fetches_of_none _ hv, ?_⟩
  · show exportVolumes (fetchStep c).metrics (elems (fetchStep c).volumes) = _
    rw [← Collect_state, hv]; rfl
  · rw [Collect_state, fetchStep_of_none c habsent]; simp [hf, len]
  · intro evs hevs
    exact fetches_of_none _ (run_without_collect evs _ hv hevs)

/-- The nil answer at a concrete filer: the client answers nil without error. -/
theorem nil_result_is_refetched_at_nilSliceFiler :
    nilSliceFiler.volumes = none ∧
    (nilSliceFiler.client nilSliceFiler.listCalls).err = none ∧
    (nilSliceFiler.client nilSliceFiler.listCalls).volumes = none ∧
    (fetches nilSliceFiler = 1 ∧
    (Collect nilSliceFiler).2 = Except.ok [] ∧
    (Collect nilSliceFiler).1.volumes = none ∧
    (Collect nilSliceFiler).1.pending = nilSliceFiler.pending ∧
    fetches (Collect nilSliceFiler).1 = 1 ∧
    ∀ evs : List Event, Event.collect ∉ evs →
      fetches (run (Collect nilSliceFiler).1 evs) = 1) :=
  ⟨rfl, rfl, rfl, nil_result_is_refetched nilSliceFiler rfl rfl rfl⟩

/-- C3: for a collector whose cache is absent, if `ListVolumes` answers with an
error (whatever slice comes with it), `Collect` makes that one call, returns
normally with zero samples, schedules no invalidation and leaves the cache
absent, and the next `Collect` calls `ListVolumes` again, whatever events
other than a `Collect` (scheduled invalidations running, `Describe`) come in
between. -/
theorem fetch_error_emits_nothing_and_retries (c : VolumeCollector) (e : String)
    (habsent : c.volumes = none)
    (herr : (c.client c.listCalls).err = some e) :
    fetches c = 1 ∧
    (Collect c).2 = Except.ok [] ∧
    (Collect c).1.pending = c.pending ∧
    (Collect c).1.volumes = none ∧
    fetches (Collect c).1 = 1 ∧
    ∀ evs : List Event, Event.collect ∉ evs → fetches (run (Collect c).1 evs) = 1 := by
  have hf : (Fetch c).2 = none := Fetch_of_error c e herr
  have hv : (Collect c).1.volumes = none := by
    rw [Collect_state, fetchStep_volumes]; simp [cacheAfterFetch, habsent, hf]
  refine ⟨fetches_of_none c habsent, ?_, ?_, hv, fetches_of_none _ hv, ?_⟩
  · show exportVolumes (fetchStep c).metrics (elems (fetchStep c).volumes) = _
    rw [← Collect_state, hv]; rfl
  · rw [Collect_state, fetchStep_of_none c habsent]; simp [hf, len]
  · intro evs hevs
    exact fetches_of_none _ (run_without_collect evs _ hv hevs)

/-- Witness of C3: the filer whose client fails. -/
theorem fetch_error_emits_nothing_and_retries_witness :
    failingFiler.volumes = none ∧
    (failingFiler.client failingFiler.listCalls).err = some "timeout" ∧
    (fetches failingFiler = 1 ∧
    (Collect failingFiler).2 = Except.ok [] ∧
    (Collect failingFiler).1.pending = failingFiler.pending ∧
    (Collect failingFiler).1.volumes = none ∧
    fetches (Collect failingFiler).1 = 1 ∧
    ∀ evs : List Event, Event.collect ∉ evs →
      fetches (run (Collect failingFiler).1 evs) = 1) :=
  ⟨rfl, rfl, fetch_error_emits_nothing_and_retries failingFiler "timeout" rfl rfl⟩

/-- C4: let a collector with the constructor's table and an absent cache
collect while `ListVolumes` answers a non-empty list `L` without error.  That
`Collect` makes one call, caches `L`, emits the samples of `L` and schedules an
invalidation.  After any sequence of events in which no invalidation runs, the
state is still the same, a `Collect` makes no call of `ListVolumes` and emits
exactly the samples of `L`; an invalidation is still scheduled, and once it
has run the cache is absent and the first `Collect` after it makes exactly one
call. -/
theorem cache_served_until_invalidated (c : VolumeCollector) (L : List Volume)
    (hc : Constructed c)
    (habsent : c.volumes = none)
    (hok : (c.client c.listCalls).err = none)
    (hL : (c.client c.listCalls).volumes = some L)
    (hne : L ≠ []) :
    fetches c = 1 ∧
    (Collect c).1.volumes = some L ∧
    (Collect c).2 = Except.ok (samplesOf c.metrics L) ∧
    (Collect c).1.pending = c.pending + 1 ∧
    ∀ evs : List Event, Event.invalidate ∉ evs →
      run (Collect c).1 evs = (Collect c).1 ∧
      fetches (run (Collect c).1 evs) = 0 ∧
      (Collect (run (Collect c).1 evs)).2 = Except.ok (samplesOf c.metrics L) ∧
      0 < (run (Collect c).1 evs).pending ∧
      (invalidate (run (Collect c).1 evs)).volumes = none ∧
      ∀ evs2 : List Event, Event.collect ∉ evs2 →
        fetches (run (invalidate (run (Collect c).1 evs)) evs2) = 1 := by
  have hf : (Fetch c).2 = some L := by rw [Fetch_of_success c hok, hL]
  have hlen : len (some L) > 0 := by
    cases L with
    | nil => exact absurd rfl hne
    | cons v vs => simp [len]
  have hca : cacheAfterFetch c = some L := by simp [cacheAfterFetch, habsent, hf]
  have hv : (Collect c).1.volumes = some L := by
    rw [Collect_state, fetchStep_volumes, hca]
  have hp : (Collect c).1.pending = c.pending + 1 := by
    rw [Collect_state, fetchStep_of_none c habsent]; simp [hf, hlen]
  have hs : (Collect c).2 = Except.ok (samplesOf c.metrics L) := by
    rw [Collect_samples c hc, hca]; rfl
  have hc1 : Constructed (Collect c).1 := fetchStep_constructed c hc
  have hm1 : (Collect c).1.metrics = c.metrics := fetchStep_metrics c
  refine ⟨fetches_of_none c habsent, hv, hs, hp, ?_⟩
  intro evs hevs
  rw [run_without_invalidate evs _ L hv hevs]
  refine ⟨rfl, fetches_of_some _ L hv, ?_, ?_, ?_, ?_⟩
  · rw [Collect_samples _ hc1, hm1]
    simp [cacheAfterFetch, hv, elems]
  · rw [hp]; exact Nat.succ_pos _
  · simp [invalidate, hp]
  · intro evs2 hevs2
    apply fetches_of_none
    apply run_without_collect evs2 _ _ hevs2
    simp [invalidate, hp]

/-- Witness of C4: the filer with one volume. -/
theorem cache_served_until_invalidated_witness :
    Constructed oneVolumeFiler ∧
    oneVolumeFiler.volumes = none ∧
    (oneVolumeFiler.client oneVolumeFiler.listCalls).err = none ∧
    (oneVolumeFiler.client oneVolumeFiler.listCalls).volumes = some [sampleVolume] ∧
    [sampleVolume] ≠ [] ∧
    (fetches oneVolumeFiler = 1 ∧
    (Collect oneVolumeFiler).1.volumes = some [sampleVolume] ∧
    (Collect oneVolumeFiler).2 = Except.ok (samplesOf oneVolumeFiler.metrics [sampleVolume]) ∧
    (Collect oneVolumeFiler).1.pending = oneVolumeFiler.pending + 1 ∧
    ∀ evs : List Event, Event.invalidate ∉ evs →
      run (Collect oneVolumeFiler).1 evs = (Collect oneVolumeFiler).1 ∧
      fetches (run (Collect oneVolumeFiler).1 evs) = 0 ∧
      (Collect (run (Collect oneVolumeFiler).1 evs)).2
        = Except.ok (samplesOf oneVolumeFiler.metrics [sampleVolume]) ∧
      0 < (run (Collect oneVolumeFiler).1 evs).pending ∧
      (invalidate (run (Collect oneVolumeFiler).1 evs)).volumes = none ∧
      ∀ evs2 : List Event, Event.collect ∉ evs2 →
        fetches (run (invalidate (run (Collect oneVolumeFiler).1 evs)) evs2) = 1) :=
  ⟨rfl, rfl, rfl, rfl, List.cons_ne_nil _ _,
    cache_served_until_invalidated oneVolumeFiler [sampleVolume] rfl rfl rfl rfl
      (List.cons_ne_nil _ _)⟩

/-- C10: in every state reachable from a freshly constructed collector at most
one invalidation is scheduled, and one is scheduled exactly when the cache
holds at least one volume; a `Collect` in such a state schedules an
invalidation exactly when the cache was absent and `Fetch` returned a
non-empty list, and otherwise leaves the number of scheduled invalidations as
it was: so it is when the client reports an error, when the client answers
with no volume, and when the cache is populated. -/
theorem invalidation_pending_iff_cache_nonempty (c : VolumeCollector) (h : Reachable c) :
    c.pending ≤ 1 ∧
    (0 < c.pending ↔ 0 < len c.volumes) ∧
    (schedules c ↔ c.volumes = none ∧ 0 < len (Fetch c).2) ∧
    (¬ schedules c → (Collect c).1.pending = c.pending) ∧
    ((c.client c.listCalls).err ≠ none → ¬ schedules c) ∧
    (len (c.client c.listCalls).volumes = 0 → ¬ schedules c) ∧
    (c.volumes ≠ none → ¬ schedules c) := by
  have hinv := reachable_invariant c h
  have hiff : schedules c ↔ c.volumes = none ∧ 0 < len (Fetch c).2 := by
    unfold schedules
    rw [Collect_state]
    cases hv : c.volumes with
    | some vs => rw [fetchStep_of_some c vs hv]; simp
    | none =>
      rw [fetchStep_of_none c hv]
      by_cases hl : len (Fetch c).2 > 0 <;> simp [hl]
  have hkeep : ¬ schedules c → (Collect c).1.pending = c.pending := by
    intro hns
    rw [Collect_state]
    cases hv : c.volumes with
    | some vs => rw [fetchStep_of_some c vs hv]
    | none =>
      rw [fetchStep_of_none c hv]
      have hl : ¬ len (Fetch c).2 > 0 := fun hl => hns (hiff.mpr ⟨hv, hl⟩)
      simp [hl]
  refine ⟨hinv.1, hinv.2, hiff, hkeep, ?_, ?_, ?_⟩
  · intro herr hs
    obtain ⟨e, he⟩ := Option.ne_none_iff_exists'.mp herr
    have := (hiff.mp hs).2
    rw [Fetch_of_error c e he] at this
    exact Nat.lt_irrefl _ this
  · intro hzero hs
    have hpos := (hiff.mp hs).2
    cases herr : (c.client c.listCalls).err with
    | some e => rw [Fetch_of_error c e herr] at hpos; exact Nat.lt_irrefl _ hpos
    | none =>
      rw [Fetch_of_success c herr, hzero] at hpos
      exact Nat.lt_irrefl _ hpos
  · intro hne hs
    exact hne (hiff.mp hs).1

/-- Witness of C10: the state of the one-volume filer after a `Collect`. -/
theorem invalidation_pending_iff_cache_nonempty_witness :
    Reachable (Collect oneVolumeFiler).1 ∧
    ((Collect oneVolumeFiler).1.pending ≤ 1 ∧
    (0 < (Collect oneVolumeFiler).1.pending ↔ 0 < len (Collect oneVolumeFiler).1.volumes) ∧
    (schedules (Collect oneVolumeFiler).1 ↔
      (Collect oneVolumeFiler).1.volumes = none ∧ 0 < len (Fetch (Collect oneVolumeFiler).1).2) ∧
    (¬ schedules (Collect oneVolumeFiler).1 →
      (Collect (Collect oneVolumeFiler).1).1.pending = (Collect oneVolumeFiler).1.pending) ∧
    (((Collect oneVolumeFiler).1.client (Collect oneVolumeFiler).1.listCalls).err ≠ none →
      ¬ schedules (Collect oneVolumeFiler).1) ∧
    (len ((Collect oneVolumeFiler).1.client (Collect oneVolumeFiler).1.listCalls).volumes = 0 →
      ¬ schedules (Collect oneVolumeFiler).1) ∧
    ((Collect oneVolumeFiler).1.volumes ≠ none → ¬ schedules (Collect oneVolumeFiler).1)) :=
  ⟨Reachable.collect (Reachable.init _ _ _),
    invalidation_pending_iff_cache_nonempty (Collect oneVolumeFiler).1
      (Reachable.collect (Reachable.init _ _ _))⟩

/-- C7: for a collector carrying the constructor's table, whatever its cache,
call count and scheduled invalidations, `Describe` emits eleven descriptors,
named as the table names them and in that order, the names pairwise distinct
and each descriptor once; every row of the table is of gauge kind; `Describe`
is a step that changes nothing (no call of `ListVolumes`, the cache as it was);
after any sequence of events `Describe` emits the same sequence again, and any
two collectors carrying the table emit the same sequence. -/
theorem describe_emits_the_fixed_table (c : VolumeCollector) (hc : Constructed c) :
    (Describe c).map (fun d => d.fqName) =
      ["netapp_volume_state",
       "netapp_volume_total_bytes",
       "netapp_volume_used_bytes",
       "netapp_volume_available_bytes",
       "netapp_volume_snapshot_used_bytes",
       "netapp_volume_snapshot_available_bytes",
       "netapp_volume_snapshot_reserved_bytes",
       "netapp_volume_used_percentage",
       "netapp_volume_saved_total_percentage",
       "netapp_volume_saved_compression_percentage",
       "netapp_volume_saved_deduplication_percentage"] ∧
    (Describe c).length = 11 ∧
    ((Describe c).map (fun d => d.fqName)).Nodup ∧
    (Describe c).Nodup ∧
    (∀ m ∈ c.metrics, m.valueType = ValueType.GaugeValue) ∧
    step c Event.describe = c ∧
    (∀ evs : List Event, Describe (run c evs) = Describe c) ∧
    (∀ c2 : VolumeCollector, Constructed c2 → Describe c2 = Describe c) := by
  have hnames : (Describe c).map (fun d => d.fqName) =
      ["netapp_volume_state",
       "netapp_volume_total_bytes",
       "netapp_volume_used_bytes",
       "netapp_volume_available_bytes",
       "netapp_volume_snapshot_used_bytes",
       "netapp_volume_snapshot_available_bytes",
       "netapp_volume_snapshot_reserved_bytes",
       "netapp_volume_used_percentage",
       "netapp_volume_saved_total_percentage",
       "netapp_volume_saved_compression_percentage",
       "netapp_volume_saved_deduplication_percentage"] := by
    unfold Describe; rw [hc]; rfl
  have hnodup : ((Describe c).map (fun d => d.fqName)).Nodup := by
    rw [hnames]; decide
  refine ⟨hnames, ?_, hnodup, List.Nodup.of_map _ hnodup, ?_, rfl, ?_, ?_⟩
  · unfold Describe; rw [List.length_map, table_length c hc]
  · intro m hm
    rw [hc] at hm
    simp only [NewVolumeCollector, NewDesc, List.mem_cons, List.mem_singleton] at hm
    simp only [List.not_mem_nil, or_false] at hm
    rcases hm with h | h | h | h | h | h | h | h | h | h | h <;> (subst h; rfl)
  · intro evs
    unfold Describe; rw [run_metrics]
  · intro c2 hc2
    unfold Describe; rw [hc, hc2]; rfl

/-- Witness of C7: the one-volume filer after a `Collect`, its cache populated. -/
theorem describe_emits_the_fixed_table_witness :
    Constructed (Collect oneVolumeFiler).1 ∧
    ((Describe (Collect oneVolumeFiler).1).map (fun d => d.fqName) =
      ["netapp_volume_state",
       "netapp_volume_total_bytes",
       "netapp_volume_used_bytes",
       "netapp_volume_available_bytes",
       "netapp_volume_snapshot_used_bytes",
       "netapp_volume_snapshot_available_bytes",
       "netapp_volume_snapshot_reserved_bytes",
       "netapp_volume_used_percentage",
       "netapp_volume_saved_total_percentage",
       "netapp_volume_saved_compression_percentage",
       "netapp_volume_saved_deduplication_percentage"] ∧
    (Describe (Collect oneVolumeFiler).1).length = 11 ∧
    ((Describe (Collect oneVolumeFiler).1).map (fun d => d.fqName)).Nodup ∧
    (Describe (Collect oneVolumeFiler).1).Nodup ∧
    (∀ m ∈ (Collect oneVolumeFiler).1.metrics, m.valueType = ValueType.GaugeValue) ∧
    step (Collect oneVolumeFiler).1 Event.describe = (Collect oneVolumeFiler).1 ∧
    (∀ evs : List Event,
      Describe (run (Collect oneVolumeFiler).1 evs) = Describe (Collect oneVolumeFiler).1) ∧
    (∀ c2 : VolumeCollector, Constructed c2 →
      Describe c2 = Describe (Collect oneVolumeFiler).1)) :=
  ⟨rfl, describe_emits_the_fixed_table (Collect oneVolumeFiler).1 rfl⟩

/-- C8: for a collector carrying the constructor's table, whatever its cache
and whatever the client answers, `Collect` returns normally and the descriptor
of every sample it emits is one of those `Describe` emits, before as well as
after that `Collect`. -/
theorem collect_emits_only_described (c : VolumeCollector) (hc : Constructed c) :
    ∃ samples : List Metric,
      (Collect c).2 = Except.ok samples ∧
      ∀ s ∈ samples, s.desc ∈ Describe c ∧ s.desc ∈ Describe (Collect c).1 := by
  refine ⟨_, Collect_samples c hc, ?_⟩
  intro s hs
  have hmem : s.desc ∈ Describe c := by
    simp only [samplesOf, List.mem_flatMap, List.mem_map] at hs
    obtain ⟨v, _, m, hm, rfl⟩ := hs
    exact List.mem_map.mpr ⟨m, hm, rfl⟩
  refine ⟨hmem, ?_⟩
  have : Describe (Collect c).1 = Describe c := by
    unfold Describe; rw [Collect_state, fetchStep_metrics]
  rw [this]; exact hmem

/-- Witness of C8: the filer with one volume. -/
theorem collect_emits_only_described_witness :
    Constructed oneVolumeFiler ∧
    ∃ samples : List Metric,
      (Collect oneVolumeFiler).2 = Except.ok samples ∧
      ∀ s ∈ samples, s.desc ∈ Describe oneVolumeFiler ∧
        s.desc ∈ Describe (Collect oneVolumeFiler).1 :=
  ⟨rfl, collect_emits_only_described oneVolumeFiler rfl⟩

/-- C5: for a collector carrying the constructor's table, `Collect` returns
normally, and the names and values of the samples it emits are, for each
cached volume in turn, the eleven names of the table each with the matching
attribute of that volume, the state converted to a number. -/
theorem sample_values_are_the_attributes (c : VolumeCollector) (hc : Constructed c) :
    ∃ samples : List Metric,
      (Collect c).2 = Except.ok samples ∧
      samples.map (fun s => (s.desc.fqName, s.val)) =
        (elems (Collect c).1.volumes).flatMap (fun v =>
          [("netapp_volume_state", Float.ofInt v.State),
           ("netapp_volume_total_bytes", v.SizeTotal),
           ("netapp_volume_used_bytes", v.SizeUsed),
           ("netapp_volume_available_bytes", v.SizeAvailable),
           ("netapp_volume_snapshot_used_bytes", v.SizeUsedBySnapshots),
           ("netapp_volume_snapshot_available_bytes", v.SizeAvailableForSnapshots),
           ("netapp_volume_snapshot_reserved_bytes", v.SnapshotReserveSize),
           ("netapp_volume_used_percentage", v.PercentageSizeUsed),
           ("netapp_volume_saved_total_percentage", v.PercentageTotalSpaceSaved),
           ("netapp_volume_saved_compression_percentage", v.PercentageCompressionSpaceSaved),
           ("netapp_volume_saved_deduplication_percentage",
             v.PercentageDeduplicationSpaceSaved)]) := by
  refine ⟨_, Collect_samples c hc, ?_⟩
  rw [Collect_state, fetchStep_volumes, samplesOf, List.map_flatMap, hc]
  rfl

/-- Witness of C5: the volume with state 3, total size 1000, used size 400 and
used percentage 40 yields the values 3, 1000 and 40 under the three names. -/
theorem sample_values_are_the_attributes_witness :
    Constructed oneVolumeFiler ∧
    (∃ samples : List Metric,
      (Collect oneVolumeFiler).2 = Except.ok samples ∧
      samples.map (fun s => (s.desc.fqName, s.val)) =
        (elems (Collect oneVolumeFiler).1.volumes).flatMap (fun v =>
          [("netapp_volume_state", Float.ofInt v.State),
           ("netapp_volume_total_bytes", v.SizeTotal),
           ("netapp_volume_used_bytes", v.SizeUsed),
           ("netapp_volume_available_bytes", v.SizeAvailable),
           ("netapp_volume_snapshot_used_bytes", v.SizeUsedBySnapshots),
           ("netapp_volume_snapshot_available_bytes", v.SizeAvailableForSnapshots),
           ("netapp_volume_snapshot_reserved_bytes", v.SnapshotReserveSize),
           ("netapp_volume_used_percentage", v.PercentageSizeUsed),
           ("netapp_volume_saved_total_percentage", v.PercentageTotalSpaceSaved),
           ("netapp_volume_saved_compression_percentage", v.PercentageCompressionSpaceSaved),
           ("netapp_volume_saved_deduplication_percentage",
             v.PercentageDeduplicationSpaceSaved)])) ∧
    (elems (Collect oneVolumeFiler).1.volumes).flatMap (fun v =>
        [("netapp_volume_state", Float.ofInt v.State),
         ("netapp_volume_total_bytes", v.SizeTotal),
         ("netapp_volume_used_percentage", v.PercentageSizeUsed)])
      = [("netapp_volume_state", 3),
         ("netapp_volume_total_bytes", 1000),
         ("netapp_volume_used_percentage", 40)] :=
  ⟨rfl, sample_values_are_the_attributes oneVolumeFiler rfl, rfl⟩

/-- C6: for a collector carrying the constructor's table, every descriptor
declares the schema (vserver, volume, project_id, share_id, share_name,
share_type); `Collect` returns normally, no sample constructor refusing its
labels; the label values of the samples are, for each cached volume in turn,
eleven times the sequence (Vserver, Volume, ProjectID, ShareID, ShareName,
ShareType) of that volume; every sample has six label values, as many as its
descriptor's schema has names. -/
theorem label_values_follow_the_schema (c : VolumeCollector) (hc : Constructed c) :
    (∀ d ∈ Describe c, d.variableLabels =
      ["vserver", "volume", "project_id", "share_id", "share_name", "share_type"]) ∧
    ∃ samples : List Metric,
      (Collect c).2 = Except.ok samples ∧
      samples.map (fun s => s.labelValues) =
        (elems (Collect c).1.volumes).flatMap (fun v =>
          List.replicate 11
            [v.Vserver, v.Volume, v.ProjectID, v.ShareID, v.ShareName, v.ShareType]) ∧
      ∀ s ∈ samples,
        s.labelValues.length = 6 ∧
        s.labelValues.length = s.desc.variableLabels.length ∧
        MustNewConstMetric s.desc s.valType s.val s.labelValues = Except.ok s := by
  refine ⟨?_, _, Collect_samples c hc, ?_, ?_⟩
  · intro d hd
    unfold Describe at hd
    rw [hc] at hd
    simp only [NewVolumeCollector, NewDesc, List.map_cons, List.map_nil, List.mem_cons,
      List.mem_singleton] at hd
    simp only [List.not_mem_nil, or_false] at hd
    rcases hd with h | h | h | h | h | h | h | h | h | h | h <;> (subst h; rfl)
  · rw [Collect_state, fetchStep_volumes, samplesOf, List.map_flatMap, hc]
    rfl
  · intro s hs
    simp only [samplesOf, List.mem_flatMap, List.mem_map] at hs
    obtain ⟨v, _, m, hm, rfl⟩ := hs
    have h6 := table_label_arity c hc m hm
    refine ⟨rfl, ?_, ?_⟩
    · exact h6.symm
    · simp [MustNewConstMetric, NewConstMetric, sampleOf, labelsOf, h6]

/-- Witness of C6: the filer with one volume. -/
theorem label_values_follow_the_schema_witness :
    Constructed oneVolumeFiler ∧
    (∀ d ∈ Describe oneVolumeFiler, d.variableLabels =
      ["vserver", "volume", "project_id", "share_id", "share_name", "share_type"]) ∧
    ∃ samples : List Metric,
      (Collect oneVolumeFiler).2 = Except.ok samples ∧
      samples.map (fun s => s.labelValues) =
        (elems (Collect oneVolumeFiler).1.volumes).flatMap (fun v =>
          List.replicate 11
            [v.Vserver, v.Volume, v.ProjectID, v.ShareID, v.ShareName, v.ShareType]) ∧
      ∀ s ∈ samples,
        s.labelValues.length = 6 ∧
        s.labelValues.length = s.desc.variableLabels.length ∧
        MustNewConstMetric s.desc s.valType s.val s.labelValues = Except.ok s :=
  ⟨rfl, label_values_follow_the_schema oneVolumeFiler rfl⟩

end Collector
